import Mathlib

/-!
Shallow embedding of the newrelic-client-go resource-client methods from
`pkg/alerts/policies.go` and `pkg/apiaccess/keys.go`.

The HTTP/GraphQL transport is an external collaborator; here it is modelled
by the sequence of responses it hands back to the client method under
scrutiny.  For the paginated REST loop (`ListPolicies`) and the cursor loop
(`QueryPolicySearch`) the transport is a list of per-request results
consumed in request order; for single-request methods it is the result of
that one request, or a function from the request parameters to a result
when the claim talks about the request that is sent.

Go errors are values; the distinct error kinds surfaced by this layer are
transport failures (returned verbatim by the collaborator), the not-found
error built by `errors.NewNotFoundf`, and API-level errors built with
`errors.New` from a formatted message.
-/

namespace NewRelic

/-- The error kinds observable from the client methods: a transport error
returned by the HTTP/GraphQL collaborator, the distinct not-found error of
`errors.NewNotFoundf`, and an API-level error built by `errors.New` from a
formatted message string. -/
inductive ClientError where
  | transport (msg : String)
  | notFound (msg : String)
  | apiError (msg : String)
deriving DecidableEq, Repr

/-- Source `IncidentPreferenceType` is a string type in the source. -/
abbrev IncidentPreferenceType := String

/-- The possible incident preference types for an alert policy
(`IncidentPreferenceTypes` in the source). -/
structure IncidentPreferenceTypesS where
  PerPolicy : IncidentPreferenceType
  PerCondition : IncidentPreferenceType
  PerConditionAndTarget : IncidentPreferenceType

/-- The values of the `IncidentPreferenceTypes` variable. -/
def IncidentPreferenceTypes : IncidentPreferenceTypesS :=
  ⟨"PER_POLICY", "PER_CONDITION", "PER_CONDITION_AND_TARGET"⟩

/-- Source `Policy` represents a New Relic alert policy.  `EpochTime` pointers are
modelled as optional epoch timestamps. -/
structure Policy where
  id : Int
  incidentPreference : IncidentPreferenceType
  name : String
  createdAt : Option Int
  updatedAt : Option Int
deriving DecidableEq, Repr

/-- Source `QueryPolicy` is the NerdGraph shape of a policy. -/
structure QueryPolicy where
  id : Int
  incidentPreference : IncidentPreferenceType
  name : String
  accountID : Int
deriving DecidableEq, Repr

/-- One REST page as the `ListPolicies` loop sees it: the `Policies` slice
of the unmarshalled `alertPoliciesResponse` together with the `Next` URL the
pager parses from the same HTTP response (`a.pager.Parse(resp).Next`). -/
structure PoliciesPage where
  policies : List Policy
  next : String
deriving DecidableEq, Repr

/-- The `for nextURL != ""` loop body of `ListPolicies`: check the loop
condition, issue the next GET (consume the head of the transport's response
list), return any transport error as-is, otherwise append the page's
policies to the accumulator and continue with the parsed next URL.  A
transport that stops answering while the loop still wants a page is a
transport error (the Go loop simply issues another request there). -/
def listPoliciesLoop :
    List (Except ClientError PoliciesPage) → List Policy → String →
    Except ClientError (List Policy)
  | resps, acc, nextURL =>
    if nextURL = "" then .ok acc
    else
      match resps with
      | [] => .error (.transport "no response from transport")
      | .error e :: _ => .error e
      | .ok page :: rest => listPoliciesLoop rest (acc ++ page.policies) page.next

/-- Source `ListPolicies`: start with an empty accumulator at `/alerts_policies.json`
and loop while a next URL is present.  The `params` filter only feeds the
transport, which is already given by its responses. -/
def ListPolicies (resps : List (Except ClientError PoliciesPage)) :
    Except ClientError (List Policy) :=
  listPoliciesLoop resps [] "/alerts_policies.json"

/-- The linear scan inside `GetPolicy`: return the first policy in the list
whose `ID` equals the requested id. -/
def findPolicyByID (id : Int) : List Policy → Option Policy
  | [] => none
  | p :: rest => if p.id = id then some p else findPolicyByID id rest

/-- Source `GetPolicy`: list all policies, propagate a listing error, return the
first policy whose ID matches, or the distinct not-found error
`errors.NewNotFoundf "no alert policy found for id %d"`. -/
def GetPolicy (resps : List (Except ClientError PoliciesPage)) (id : Int) :
    Except ClientError Policy :=
  match ListPolicies resps with
  | .error e => .error e
  | .ok policies =>
    match findPolicyByID id policies with
    | some p => .ok p
    | none => .error (.notFound ("no alert policy found for id " ++ toString id))

/-- The request body `alertPolicyRequestBody` wrapping a policy as
`{"policy": ...}`. -/
structure AlertPolicyRequestBody where
  policy : Policy
deriving DecidableEq, Repr

/-- The response body `alertPolicyResponse` holding a single policy. -/
structure AlertPolicyResponse where
  policy : Policy
deriving DecidableEq, Repr

/-- Source `CreatePolicy`: POST the wrapped input policy to `/alerts_policies.json`
and return the response body's policy.  The transport's `Post` is modelled
as a function from URL and request body to a result. -/
def CreatePolicy
    (post : String → AlertPolicyRequestBody → Except ClientError AlertPolicyResponse)
    (policy : Policy) : Except ClientError Policy :=
  match post "/alerts_policies.json" ⟨policy⟩ with
  | .error e => .error e
  | .ok resp => .ok resp.policy

/-- Source `UpdatePolicy`: PUT the wrapped input policy to
`/alerts_policies/<ID>.json` (URL built by `fmt.Sprintf` from the input
policy's ID) and return the response body's policy. -/
def UpdatePolicy
    (put : String → AlertPolicyRequestBody → Except ClientError AlertPolicyResponse)
    (policy : Policy) : Except ClientError Policy :=
  match put ("/alerts_policies/" ++ toString policy.id ++ ".json") ⟨policy⟩ with
  | .error e => .error e
  | .ok resp => .ok resp.policy

/-- One GraphQL search page as `QueryPolicySearch` sees it: the
`policiesSearch` object's `nextCursor` (`*string`, so `Option`) and its
`policies` slice. -/
structure PolicySearchPage where
  nextCursor : Option String
  policies : List QueryPolicy
deriving DecidableEq, Repr

/-- The `for ok := true; ok; ok = nextCursor != nil` loop of
`QueryPolicySearch`: the body always runs at least once; each iteration
issues one query (consumes the head of the transport's response list),
returns any transport error as-is, appends the page's policies, and
continues exactly when the returned `nextCursor` is non-nil.  A transport
that stops answering while the loop still wants a page is a transport
error. -/
def queryPolicySearchLoop :
    List (Except ClientError PolicySearchPage) → List QueryPolicy →
    Except ClientError (List QueryPolicy)
  | [], _ => .error (.transport "no response from transport")
  | .error e :: _, _ => .error e
  | .ok page :: rest, acc =>
    match page.nextCursor with
    | none => .ok (acc ++ page.policies)
    | some _ => queryPolicySearchLoop rest (acc ++ page.policies)

/-- Source `QueryPolicySearch`: run the cursor loop starting from an empty
accumulator (and a nil cursor). -/
def QueryPolicySearch (resps : List (Except ClientError PolicySearchPage)) :
    Except ClientError (List QueryPolicy) :=
  queryPolicySearchLoop resps []

/-- The NerdGraph delete response `alertQueryPolicyDeleteRespose`: the
parsed `alertsPolicyDelete` object's ID. -/
structure AlertQueryPolicyDeleteRespose where
  alertsPolicyDeleteID : Int
deriving DecidableEq, Repr

/-- The zero value `QueryPolicy{}` freshly constructed by
`DeletePolicyMutation`. -/
def emptyQueryPolicy : QueryPolicy := ⟨0, "", "", 0⟩

/-- Source `DeletePolicyMutation`: construct a zero-valued `QueryPolicy`, run the
delete mutation with the given account ID and policy ID, and on success
return the zero-valued policy, ignoring the parsed response body. -/
def DeletePolicyMutation
    (query : Int → Int → Except ClientError AlertQueryPolicyDeleteRespose)
    (accountID id : Int) : Except ClientError QueryPolicy :=
  match query accountID id with
  | .error e => .error e
  | .ok _ => .ok emptyQueryPolicy

/-- Source `ApiAccessKey` represents a New Relic API access ingest or user key
(fields as in the source's commented-out shape and the spec's data model). -/
structure ApiAccessKey where
  id : String
  key : String
  name : String
  notes : String
  keyType : String
  accountID : Int
  ingestType : String
  userID : String
deriving DecidableEq, Repr

/-- One entry of a key-mutation `errors` array; the aggregation helper uses
its `Type` and `Message` fields. -/
structure ApiAccessKeyError where
  errType : String
  message : String
deriving DecidableEq, Repr

/-- Source `formatAPIAccessKeyMutationErrors`: fold over the errors slice,
appending one `"<type>: <message>\n"` line (built by `fmt.Sprintf`) per
entry to the accumulated string, starting from the empty string. -/
def formatAPIAccessKeyMutationErrors (errors : List ApiAccessKeyError) : String :=
  errors.foldl (fun errorString e => errorString ++ (e.errType ++ ": " ++ e.message ++ "\n")) ""

/-- The `apiAccessCreateKeys` mutation payload: created keys plus a
mutation errors array (`len` of a nil Go slice is 0, so a plain list models
the `len(...) > 0` check faithfully). -/
structure ApiAccessCreateKeyResponse where
  createdKeys : List ApiAccessKey
  errors : List ApiAccessKeyError
deriving DecidableEq, Repr

/-- The `apiAccessUpdateKeys` mutation payload. -/
structure ApiAccessUpdateKeyResponse where
  updatedKeys : List ApiAccessKey
  errors : List ApiAccessKeyError
deriving DecidableEq, Repr

/-- A deleted key reference (only its ID is selected). -/
structure ApiAccessDeletedKey where
  id : String
deriving DecidableEq, Repr

/-- The `apiAccessDeleteKeys` mutation payload. -/
structure ApiAccessDeleteKeyResponse where
  deletedKeys : List ApiAccessDeletedKey
  errors : List ApiAccessKeyError
deriving DecidableEq, Repr

/-- One entry of a top-level GraphQL `errors` array. -/
structure GraphQLError where
  message : String
deriving DecidableEq, Repr

/-- Modelled from the spec: the embedded `http.GraphQLErrorResponse` and its
`Error()` method live in `internal/http`, which is not among the sources;
the spec says API-level errors are the "GraphQL `errors` array translated
into a formatted error string per entry".  The `Errors` field is a Go slice
pointer-like value (`nil` distinct from empty), modelled as an optional
list; the formatted string joins one line per entry. -/
def graphQLErrorString (errs : Option (List GraphQLError)) : String :=
  String.join ((errs.getD []).map (fun e => e.message ++ "\n"))

/-- The unmarshalled `apiAccessKeyGetResponse`: the key at
`actor.apiAccess.key` plus the embedded GraphQL error response (whose
`Errors` slice may be nil or present). -/
structure ApiAccessKeyGetResponse where
  key : ApiAccessKey
  errors : Option (List GraphQLError)
deriving DecidableEq, Repr

/-- Source `keySearch` result: the matched keys. -/
structure ApiAccessKeySearchResult where
  keys : List ApiAccessKey
deriving DecidableEq, Repr

/-- The unmarshalled `apiAccessKeySearchResponse`: the search result at
`actor.apiAccess.keySearch` plus the embedded GraphQL error response. -/
structure ApiAccessKeySearchResponse where
  keySearch : ApiAccessKeySearchResult
  errors : Option (List GraphQLError)
deriving DecidableEq, Repr

/-- Source `CreateAPIAccessKeysMutation`: propagate a transport error; if the
mutation errors array has at least one entry (`len(...) > 0`), return the
aggregated error built by `errors.New`; otherwise return the created
keys.  The transport is given by the result of the one `NerdGraphQuery`
call. -/
def CreateAPIAccessKeysMutation
    (queryResult : Except ClientError ApiAccessCreateKeyResponse) :
    Except ClientError (List ApiAccessKey) :=
  match queryResult with
  | .error e => .error e
  | .ok resp =>
    if resp.errors.length > 0 then
      .error (.apiError (formatAPIAccessKeyMutationErrors resp.errors))
    else
      .ok resp.createdKeys

/-- Source `UpdateAPIAccessKeyMutation`: same shape as create, over the updated
keys. -/
def UpdateAPIAccessKeyMutation
    (queryResult : Except ClientError ApiAccessUpdateKeyResponse) :
    Except ClientError (List ApiAccessKey) :=
  match queryResult with
  | .error e => .error e
  | .ok resp =>
    if resp.errors.length > 0 then
      .error (.apiError (formatAPIAccessKeyMutationErrors resp.errors))
    else
      .ok resp.updatedKeys

/-- Source `DeleteAPIAccessKeyMutation`: same shape, over the deleted key
references. -/
def DeleteAPIAccessKeyMutation
    (queryResult : Except ClientError ApiAccessDeleteKeyResponse) :
    Except ClientError (List ApiAccessDeletedKey) :=
  match queryResult with
  | .error e => .error e
  | .ok resp =>
    if resp.errors.length > 0 then
      .error (.apiError (formatAPIAccessKeyMutationErrors resp.errors))
    else
      .ok resp.deletedKeys

/-- Source `GetAPIAccessKeyMutation`: propagate a transport error; if the embedded
GraphQL `Errors` slice is non-nil (`resp.Errors != nil`, even when empty),
return `errors.New(resp.Error())`; otherwise return the key. -/
def GetAPIAccessKeyMutation
    (queryResult : Except ClientError ApiAccessKeyGetResponse) :
    Except ClientError ApiAccessKey :=
  match queryResult with
  | .error e => .error e
  | .ok resp =>
    if resp.errors.isSome then
      .error (.apiError (graphQLErrorString resp.errors))
    else
      .ok resp.key

/-- Source `SearchAPIAccessKeys`: same non-nil `Errors` check as get, otherwise
return the keys of the search result. -/
def SearchAPIAccessKeys
    (queryResult : Except ClientError ApiAccessKeySearchResponse) :
    Except ClientError (List ApiAccessKey) :=
  match queryResult with
  | .error e => .error e
  | .ok resp =>
    if resp.errors.isSome then
      .error (.apiError (graphQLErrorString resp.errors))
    else
      .ok resp.keySearch.keys


theorem listPoliciesLoop_stop (resps : List (Except ClientError PoliciesPage))
    (acc : List Policy) : listPoliciesLoop resps acc "" = .ok acc := by
  rw [listPoliciesLoop.eq_def]
  simp

theorem listPoliciesLoop_cons_ok (page : PoliciesPage)
    (rest : List (Except ClientError PoliciesPage)) (acc : List Policy)
    (url : String) (h : url ≠ "") :
    listPoliciesLoop (.ok page :: rest) acc url =
      listPoliciesLoop rest (acc ++ page.policies) page.next := by
  rw [listPoliciesLoop.eq_def]
  simp [h]

theorem listPoliciesLoop_cons_err (e : ClientError)
    (rest : List (Except ClientError PoliciesPage)) (acc : List Policy)
    (url : String) (h : url ≠ "") :
    listPoliciesLoop (.error e :: rest) acc url = .error e := by
  rw [listPoliciesLoop.eq_def]
  simp [h]

theorem listPoliciesLoop_pages : ∀ (init : List PoliciesPage) (last : PoliciesPage)
    (extra : List (Except ClientError PoliciesPage)) (acc : List Policy) (url : String),
    url ≠ "" → (∀ p ∈ init, p.next ≠ "") → last.next = "" →
    listPoliciesLoop ((init ++ [last]).map Except.ok ++ extra) acc url =
      .ok (acc ++ ((init ++ [last]).map (fun pg => pg.policies)).flatten)
  | [], last, extra, acc, url, hurl, _, hlast => by
    simp only [List.nil_append, List.map_cons, List.map_nil, List.cons_append,
      List.nil_append]
    rw [listPoliciesLoop_cons_ok _ _ _ _ hurl, hlast, listPoliciesLoop_stop]
    simp
  | p :: rest, last, extra, acc, url, hurl, hmid, hlast => by
    have hp : p.next ≠ "" := hmid p (by simp)
    simp only [List.cons_append, List.map_cons]
    rw [listPoliciesLoop_cons_ok _ _ _ _ hurl,
      listPoliciesLoop_pages rest last extra (acc ++ p.policies) p.next hp
        (fun q hq => hmid q (by simp [hq])) hlast]
    simp

theorem listPoliciesLoop_error : ∀ (okPages : List PoliciesPage) (e : ClientError)
    (rest : List (Except ClientError PoliciesPage)) (acc : List Policy) (url : String),
    url ≠ "" → (∀ p ∈ okPages, p.next ≠ "") →
    listPoliciesLoop (okPages.map Except.ok ++ .error e :: rest) acc url = .error e
  | [], e, rest, acc, url, hurl, _ => by
    simp only [List.map_nil, List.nil_append]
    rw [listPoliciesLoop_cons_err _ _ _ _ hurl]
  | p :: okRest, e, rest, acc, url, hurl, hok => by
    have hp : p.next ≠ "" := hok p (by simp)
    simp only [List.map_cons, List.cons_append]
    rw [listPoliciesLoop_cons_ok _ _ _ _ hurl,
      listPoliciesLoop_error okRest e rest (acc ++ p.policies) p.next hp
        (fun q hq => hok q (by simp [hq]))]

/-- C1: for every sequence of pages returned by the transport, `ListPolicies`
returns the concatenation of each page's `Policies` slice in server-provided
order, starting at `/alerts_policies.json`, following the pager's next URL,
and stopping exactly when the parsed next URL is the empty string (any
further transport responses are never requested). -/
theorem listPolicies_concatenates_pages (init : List PoliciesPage) (last : PoliciesPage)
    (extra : List (Except ClientError PoliciesPage))
    (hmid : ∀ p ∈ init, p.next ≠ "") (hlast : last.next = "") :
    ListPolicies ((init ++ [last]).map Except.ok ++ extra) =
      .ok (((init ++ [last]).map (fun pg => pg.policies)).flatten) := by
  have h := listPoliciesLoop_pages init last extra [] "/alerts_policies.json"
    (by decide) hmid hlast
  simpa [ListPolicies] using h

theorem listPolicies_concatenates_pages_witness :
    (∀ p ∈ [(⟨[⟨1, "PER_POLICY", "a", none, none⟩], "/page2"⟩ : PoliciesPage)], p.next ≠ "") ∧
    ListPolicies [.ok ⟨[⟨1, "PER_POLICY", "a", none, none⟩], "/page2"⟩,
                  .ok ⟨[⟨2, "PER_POLICY", "b", none, none⟩], ""⟩] =
      .ok [⟨1, "PER_POLICY", "a", none, none⟩, ⟨2, "PER_POLICY", "b", none, none⟩] := by
  constructor
  · decide
  · have h := listPolicies_concatenates_pages
      [⟨[⟨1, "PER_POLICY", "a", none, none⟩], "/page2"⟩]
      ⟨[⟨2, "PER_POLICY", "b", none, none⟩], ""⟩ [] (by decide) rfl
    simpa using h



theorem queryPolicySearchLoop_error : ∀ (okPages : List PolicySearchPage)
    (e : ClientError) (rest : List (Except ClientError PolicySearchPage))
    (acc : List QueryPolicy),
    (∀ p ∈ okPages, p.nextCursor ≠ none) →
    queryPolicySearchLoop (okPages.map Except.ok ++ .error e :: rest) acc = .error e
  | [], e, rest, acc, _ => by
    simp [queryPolicySearchLoop]
  | p :: okRest, e, rest, acc, hok => by
    have hp : p.nextCursor ≠ none := hok p (by simp)
    obtain ⟨c, hc⟩ : ∃ c, p.nextCursor = some c := Option.ne_none_iff_exists'.mp hp
    simp only [List.map_cons, List.cons_append, queryPolicySearchLoop, hc]
    exact queryPolicySearchLoop_error okRest e rest (acc ++ p.policies)
      (fun q hq => hok q (by simp [hq]))

/-- C5: every method returns the transport's error unchanged (with no
partial result) as soon as any request fails — including a failure on a
later page of a pagination loop, which discards the items accumulated from
the earlier pages — and on an error-free exchange returns the typed result
with no error. -/
theorem methods_propagate_transport_errors
    (okPages1 : List PoliciesPage) (okPages2 : List PolicySearchPage)
    (e1 e2 e3 : ClientError)
    (rest1 : List (Except ClientError PoliciesPage))
    (rest2 : List (Except ClientError PolicySearchPage))
    (r : ApiAccessCreateKeyResponse)
    (h1 : ∀ p ∈ okPages1, p.next ≠ "") (h2 : ∀ p ∈ okPages2, p.nextCursor ≠ none)
    (hr : r.errors = []) :
    ListPolicies (okPages1.map Except.ok ++ .error e1 :: rest1) = .error e1 ∧
    QueryPolicySearch (okPages2.map Except.ok ++ .error e2 :: rest2) = .error e2 ∧
    CreateAPIAccessKeysMutation (.error e3) = .error e3 ∧
    CreateAPIAccessKeysMutation (.ok r) = .ok r.createdKeys := by
  refine ⟨?_, ?_, rfl, ?_⟩
  · exact listPoliciesLoop_error okPages1 e1 rest1 [] "/alerts_policies.json"
      (by decide) h1
  · exact queryPolicySearchLoop_error okPages2 e2 rest2 [] h2
  · simp [CreateAPIAccessKeysMutation, hr]

theorem methods_propagate_transport_errors_witness :
    ListPolicies [.ok ⟨[⟨1, "PER_POLICY", "a", none, none⟩], "/page2"⟩,
                  .error (.transport "boom")] = .error (.transport "boom") ∧
    QueryPolicySearch [.ok ⟨some "c1", [⟨1, "PER_POLICY", "a", 9⟩]⟩,
                       .error (.transport "boom2")] = .error (.transport "boom2") ∧
    CreateAPIAccessKeysMutation (.error (.transport "boom3")) =
      .error (.transport "boom3") ∧
    CreateAPIAccessKeysMutation
        (.ok ⟨[⟨"id1", "k", "n", "", "USER", 9, "", "u1"⟩], []⟩) =
      .ok [⟨"id1", "k", "n", "", "USER", 9, "", "u1"⟩] := by
  have h := methods_propagate_transport_errors
    [⟨[⟨1, "PER_POLICY", "a", none, none⟩], "/page2"⟩]
    [⟨some "c1", [⟨1, "PER_POLICY", "a", 9⟩]⟩]
    (.transport "boom") (.transport "boom2") (.transport "boom3") [] []
    ⟨[⟨"id1", "k", "n", "", "USER", 9, "", "u1"⟩], []⟩
    (by decide) (by decide) rfl
  simpa using h

theorem findPolicyByID_eq_none_iff (id : Int) : ∀ (ps : List Policy),
    findPolicyByID id ps = none ↔ ∀ p ∈ ps, p.id ≠ id
  | [] => by simp [findPolicyByID]
  | p :: rest => by
    by_cases h : p.id = id
    · simp [findPolicyByID, h]
    · simp [findPolicyByID, h, findPolicyByID_eq_none_iff id rest]

theorem findPolicyByID_eq_some (id : Int) : ∀ (ps : List Policy) (p : Policy),
    findPolicyByID id ps = some p →
    p.id = id ∧ ∃ pre post, ps = pre ++ p :: post ∧ ∀ q ∈ pre, q.id ≠ id
  | [], p => by simp [findPolicyByID]
  | q :: rest, p => by
    by_cases h : q.id = id
    · intro hf
      simp only [findPolicyByID, if_pos h, Option.some.injEq] at hf
      subst hf
      exact ⟨h, [], rest, rfl, by simp⟩
    · intro hf
      simp only [findPolicyByID, if_neg h] at hf
      obtain ⟨hid, pre, post, heq, hpre⟩ := findPolicyByID_eq_some id rest p hf
      refine ⟨hid, q :: pre, post, by simp [heq], ?_⟩
      intro s hs
      rcases List.mem_cons.mp hs with hq | hq
      · rw [hq]; exact h
      · exact hpre s hq

/-- C3: whenever the transport yields a full listing, `GetPolicy` returns
the distinct not-found error exactly when no policy in the listing has the
requested ID, and returns a policy without error whenever some policy in
the listing matches. -/
theorem getPolicy_notFound_iff_no_match (resps : List (Except ClientError PoliciesPage))
    (id : Int) (ps : List Policy) (hls : ListPolicies resps = .ok ps) :
    (GetPolicy resps id =
        .error (.notFound ("no alert policy found for id " ++ toString id))
      ↔ ∀ p ∈ ps, p.id ≠ id) ∧
    ((∃ p ∈ ps, p.id = id) → ∃ p, GetPolicy resps id = .ok p) := by
  cases hf : findPolicyByID id ps with
  | none =>
    constructor
    · simp only [GetPolicy, hls, hf]
      exact iff_of_true (by trivial) ((findPolicyByID_eq_none_iff id ps).mp hf)
    · intro ⟨p, hp, hpid⟩
      exact absurd hpid ((findPolicyByID_eq_none_iff id ps).mp hf p hp)
  | some p =>
    have hmem : p ∈ ps ∧ p.id = id := by
      obtain ⟨hid, pre, post, heq, _⟩ := findPolicyByID_eq_some id ps p hf
      exact ⟨by rw [heq]; simp, hid⟩
    constructor
    · simp only [GetPolicy, hls, hf]
      constructor
      · intro h; cases h
      · intro hall; exact absurd hmem.2 (hall p hmem.1)
    · intro _
      refine ⟨p, ?_⟩
      simp only [GetPolicy, hls, hf]

theorem getPolicy_notFound_iff_no_match_witness :
    ListPolicies [.ok ⟨[⟨1, "PER_POLICY", "a", none, none⟩], ""⟩] =
      .ok [⟨1, "PER_POLICY", "a", none, none⟩] ∧
    (GetPolicy [.ok ⟨[⟨1, "PER_POLICY", "a", none, none⟩], ""⟩] 2 =
        .error (.notFound ("no alert policy found for id " ++ toString (2 : Int)))
      ↔ ∀ p ∈ [(⟨1, "PER_POLICY", "a", none, none⟩ : Policy)], p.id ≠ 2) := by
  refine ⟨rfl, ?_⟩
  exact (getPolicy_notFound_iff_no_match
    [.ok ⟨[⟨1, "PER_POLICY", "a", none, none⟩], ""⟩] 2
    [⟨1, "PER_POLICY", "a", none, none⟩] rfl).1

/-- C9: whenever `GetPolicy` succeeds, the returned policy carries the
requested ID and is the first policy with that ID in the order produced by
`ListPolicies` — every policy listed before it has a different ID. -/
theorem getPolicy_returns_first_match (resps : List (Except ClientError PoliciesPage))
    (id : Int) (ps : List Policy) (p : Policy)
    (hls : ListPolicies resps = .ok ps) (hget : GetPolicy resps id = .ok p) :
    p.id = id ∧ ∃ pre post, ps = pre ++ p :: post ∧ ∀ q ∈ pre, q.id ≠ id := by
  cases hf : findPolicyByID id ps with
  | none =>
    simp only [GetPolicy, hls, hf] at hget
    cases hget
  | some q =>
    simp only [GetPolicy, hls, hf, Except.ok.injEq] at hget
    subst hget
    exact findPolicyByID_eq_some id ps q hf

theorem getPolicy_returns_first_match_witness :
    GetPolicy [.ok ⟨[⟨1, "PER_POLICY", "a", none, none⟩,
                     ⟨2, "PER_POLICY", "b", none, none⟩], ""⟩] 2 =
      .ok ⟨2, "PER_POLICY", "b", none, none⟩ ∧
    ((⟨2, "PER_POLICY", "b", none, none⟩ : Policy).id = 2 ∧
      ∃ pre post, [(⟨1, "PER_POLICY", "a", none, none⟩ : Policy),
                   ⟨2, "PER_POLICY", "b", none, none⟩] =
          pre ++ (⟨2, "PER_POLICY", "b", none, none⟩ : Policy) :: post ∧
        ∀ q ∈ pre, q.id ≠ 2) := by
  refine ⟨rfl, ?_⟩
  exact getPolicy_returns_first_match
    [.ok ⟨[⟨1, "PER_POLICY", "a", none, none⟩, ⟨2, "PER_POLICY", "b", none, none⟩], ""⟩]
    2 [⟨1, "PER_POLICY", "a", none, none⟩, ⟨2, "PER_POLICY", "b", none, none⟩]
    ⟨2, "PER_POLICY", "b", none, none⟩ rfl rfl

theorem format_eq_join (errs : List ApiAccessKeyError) :
    formatAPIAccessKeyMutationErrors errs =
      String.join (errs.map (fun e => e.errType ++ ": " ++ e.message ++ "\n")) := by
  unfold formatAPIAccessKeyMutationErrors String.join
  rw [List.foldl_map]

/-- C4: a mutation response whose errors array is non-empty makes the
Create/Update/Delete key mutations return a single aggregated error — one
`type: message` line per entry, in array order (the formatted string is the
join of those lines) — and no keys. -/
theorem keyMutations_aggregate_errors (r : ApiAccessCreateKeyResponse)
    (u : ApiAccessUpdateKeyResponse) (d : ApiAccessDeleteKeyResponse)
    (hr : r.errors ≠ []) (hu : u.errors ≠ []) (hd : d.errors ≠ []) :
    CreateAPIAccessKeysMutation (.ok r) =
      .error (.apiError (formatAPIAccessKeyMutationErrors r.errors)) ∧
    UpdateAPIAccessKeyMutation (.ok u) =
      .error (.apiError (formatAPIAccessKeyMutationErrors u.errors)) ∧
    DeleteAPIAccessKeyMutation (.ok d) =
      .error (.apiError (formatAPIAccessKeyMutationErrors d.errors)) ∧
    ∀ errs : List ApiAccessKeyError,
      formatAPIAccessKeyMutationErrors errs =
        String.join (errs.map (fun e => e.errType ++ ": " ++ e.message ++ "\n")) := by
  refine ⟨?_, ?_, ?_, format_eq_join⟩
  · simp [CreateAPIAccessKeysMutation, List.length_pos.mpr hr]
  · simp [UpdateAPIAccessKeyMutation, List.length_pos.mpr hu]
  · simp [DeleteAPIAccessKeyMutation, List.length_pos.mpr hd]

theorem keyMutations_aggregate_errors_witness :
    CreateAPIAccessKeysMutation
        (.ok ⟨[], [⟨"FORBIDDEN", "cannot create"⟩, ⟨"INVALID", "bad input"⟩]⟩) =
      .error (.apiError "FORBIDDEN: cannot create\nINVALID: bad input\n") ∧
    UpdateAPIAccessKeyMutation (.ok ⟨[], [⟨"FORBIDDEN", "cannot update"⟩]⟩) =
      .error (.apiError "FORBIDDEN: cannot update\n") ∧
    DeleteAPIAccessKeyMutation (.ok ⟨[], [⟨"FORBIDDEN", "cannot delete"⟩]⟩) =
      .error (.apiError "FORBIDDEN: cannot delete\n") := by
  have h := keyMutations_aggregate_errors
    ⟨[], [⟨"FORBIDDEN", "cannot create"⟩, ⟨"INVALID", "bad input"⟩]⟩
    ⟨[], [⟨"FORBIDDEN", "cannot update"⟩]⟩
    ⟨[], [⟨"FORBIDDEN", "cannot delete"⟩]⟩
    (by decide) (by decide) (by decide)
  exact ⟨h.1, h.2.1, h.2.2.1⟩

/-- C6: `CreatePolicy` and `UpdatePolicy` send the input policy unchanged,
wrapped as the `{"policy": ...}` request body — `UpdatePolicy` to the URL
`/alerts_policies/<ID>.json` built from the input policy's ID — and return
exactly the response body's policy, so any field the server echoes back
unchanged is unchanged in the result. -/
theorem createUpdatePolicy_roundtrip
    (post put : String → AlertPolicyRequestBody → Except ClientError AlertPolicyResponse)
    (p : Policy) (resp : AlertPolicyResponse) :
    (post "/alerts_policies.json" ⟨p⟩ = .ok resp →
      CreatePolicy post p = .ok resp.policy) ∧
    (put ("/alerts_policies/" ++ toString p.id ++ ".json") ⟨p⟩ = .ok resp →
      UpdatePolicy put p = .ok resp.policy) ∧
    (post "/alerts_policies.json" ⟨p⟩ = .ok resp → resp.policy.name = p.name →
      ∃ q, CreatePolicy post p = .ok q ∧ q.name = p.name) := by
  refine ⟨?_, ?_, ?_⟩
  · intro h; simp [CreatePolicy, h]
  · intro h; simp [UpdatePolicy, h]
  · intro h hname
    exact ⟨resp.policy, by simp [CreatePolicy, h], hname⟩

theorem createUpdatePolicy_roundtrip_witness :
    CreatePolicy (fun _ _ => .ok ⟨⟨7, "PER_POLICY", "a", none, none⟩⟩)
        ⟨0, "PER_POLICY", "a", none, none⟩ =
      .ok ⟨7, "PER_POLICY", "a", none, none⟩ ∧
    UpdatePolicy (fun _ _ => .ok ⟨⟨7, "PER_POLICY", "b", none, none⟩⟩)
        ⟨7, "PER_POLICY", "b", none, none⟩ =
      .ok ⟨7, "PER_POLICY", "b", none, none⟩ := by
  have h1 := (createUpdatePolicy_roundtrip
    (fun _ _ => .ok ⟨⟨7, "PER_POLICY", "a", none, none⟩⟩)
    (fun _ _ => .ok ⟨⟨7, "PER_POLICY", "a", none, none⟩⟩)
    ⟨0, "PER_POLICY", "a", none, none⟩ ⟨⟨7, "PER_POLICY", "a", none, none⟩⟩).1 rfl
  have h2 := (createUpdatePolicy_roundtrip
    (fun _ _ => .ok ⟨⟨7, "PER_POLICY", "b", none, none⟩⟩)
    (fun _ _ => .ok ⟨⟨7, "PER_POLICY", "b", none, none⟩⟩)
    ⟨7, "PER_POLICY", "b", none, none⟩ ⟨⟨7, "PER_POLICY", "b", none, none⟩⟩).2.1 rfl
  exact ⟨h1, h2⟩

/-- C7: whenever the delete mutation's transport query succeeds,
`DeletePolicyMutation` returns the freshly constructed zero-valued
`QueryPolicy`, whatever the parsed response body was — two transports that
both succeed (with any response contents, any parsed `alertsPolicyDelete`
ID) produce the same result, so the parsed ID never reaches the caller. -/
theorem deletePolicyMutation_discards_response
    (query query2 : Int → Int → Except ClientError AlertQueryPolicyDeleteRespose)
    (accountID id : Int) (resp resp2 : AlertQueryPolicyDeleteRespose)
    (h : query accountID id = .ok resp) (h2 : query2 accountID id = .ok resp2) :
    DeletePolicyMutation query accountID id = .ok emptyQueryPolicy ∧
    DeletePolicyMutation query accountID id = DeletePolicyMutation query2 accountID id ∧
    emptyQueryPolicy = ⟨0, "", "", 0⟩ := by
  refine ⟨?_, ?_, rfl⟩
  · simp [DeletePolicyMutation, h]
  · simp [DeletePolicyMutation, h, h2]

theorem deletePolicyMutation_discards_response_witness :
    DeletePolicyMutation (fun _ _ => .ok ⟨12345⟩) 1 2 = .ok emptyQueryPolicy ∧
    DeletePolicyMutation (fun _ _ => .ok ⟨12345⟩) 1 2 =
      DeletePolicyMutation (fun _ _ => .ok ⟨678⟩) 1 2 := by
  have h := deletePolicyMutation_discards_response
    (fun _ _ => .ok ⟨12345⟩) (fun _ _ => .ok ⟨678⟩) 1 2 ⟨12345⟩ ⟨678⟩ rfl rfl
  exact ⟨h.1, h.2.1⟩

/-- C8: `GetAPIAccessKeyMutation` and `SearchAPIAccessKeys` return an error
built from the formatted GraphQL error response whenever the response's
`Errors` array is present (non-nil), and return the key (or key list) from
the response body with no error when the array is absent; transport errors
are returned as-is. -/
theorem getSearchKeys_error_vs_success (g : ApiAccessKeyGetResponse)
    (s : ApiAccessKeySearchResponse) (e : ClientError) :
    (g.errors.isSome →
      GetAPIAccessKeyMutation (.ok g) = .error (.apiError (graphQLErrorString g.errors))) ∧
    (g.errors = none → GetAPIAccessKeyMutation (.ok g) = .ok g.key) ∧
    (s.errors.isSome →
      SearchAPIAccessKeys (.ok s) = .error (.apiError (graphQLErrorString s.errors))) ∧
    (s.errors = none → SearchAPIAccessKeys (.ok s) = .ok s.keySearch.keys) ∧
    GetAPIAccessKeyMutation (.error e) = .error e ∧
    SearchAPIAccessKeys (.error e) = .error e := by
  refine ⟨?_, ?_, ?_, ?_, rfl, rfl⟩
  · intro h; simp [GetAPIAccessKeyMutation, h]
  · intro h; simp [GetAPIAccessKeyMutation, h]
  · intro h; simp [SearchAPIAccessKeys, h]
  · intro h; simp [SearchAPIAccessKeys, h]

theorem getSearchKeys_error_vs_success_witness :
    GetAPIAccessKeyMutation
        (.ok ⟨⟨"id1", "k", "n", "", "USER", 9, "", "u1"⟩, some [⟨"denied"⟩]⟩) =
      .error (.apiError (graphQLErrorString (some [⟨"denied"⟩]))) ∧
    GetAPIAccessKeyMutation
        (.ok ⟨⟨"id1", "k", "n", "", "USER", 9, "", "u1"⟩, none⟩) =
      .ok ⟨"id1", "k", "n", "", "USER", 9, "", "u1"⟩ ∧
    SearchAPIAccessKeys
        (.ok ⟨⟨[⟨"id1", "k", "n", "", "USER", 9, "", "u1"⟩]⟩, none⟩) =
      .ok [⟨"id1", "k", "n", "", "USER", 9, "", "u1"⟩] := by
  have h1 := (getSearchKeys_error_vs_success
    ⟨⟨"id1", "k", "n", "", "USER", 9, "", "u1"⟩, some [⟨"denied"⟩]⟩
    ⟨⟨[⟨"id1", "k", "n", "", "USER", 9, "", "u1"⟩]⟩, none⟩ (.transport "x")).1 rfl
  have h2 := (getSearchKeys_error_vs_success
    ⟨⟨"id1", "k", "n", "", "USER", 9, "", "u1"⟩, none⟩
    ⟨⟨[⟨"id1", "k", "n", "", "USER", 9, "", "u1"⟩]⟩, none⟩ (.transport "x")).2.1 rfl
  have h3 := (getSearchKeys_error_vs_success
    ⟨⟨"id1", "k", "n", "", "USER", 9, "", "u1"⟩, none⟩
    ⟨⟨[⟨"id1", "k", "n", "", "USER", 9, "", "u1"⟩]⟩, none⟩ (.transport "x")).2.2.2.1 rfl
  exact ⟨h1, h2, h3⟩

/-- C10: the API-level error checks differ across the key operations — get
and search fail on a present-but-empty `Errors` array (non-nil slice of
length zero), while the create/update/delete mutations treat an empty
errors array as success and return the keys. -/
theorem keyOps_error_check_inconsistency (k : ApiAccessKey)
    (ks : ApiAccessKeySearchResult) (r : ApiAccessCreateKeyResponse)
    (u : ApiAccessUpdateKeyResponse) (d : ApiAccessDeleteKeyResponse)
    (hr : r.errors = []) (hu : u.errors = []) (hd : d.errors = []) :
    GetAPIAccessKeyMutation (.ok ⟨k, some []⟩) =
      .error (.apiError (graphQLErrorString (some []))) ∧
    SearchAPIAccessKeys (.ok ⟨ks, some []⟩) =
      .error (.apiError (graphQLErrorString (some []))) ∧
    CreateAPIAccessKeysMutation (.ok r) = .ok r.createdKeys ∧
    UpdateAPIAccessKeyMutation (.ok u) = .ok u.updatedKeys ∧
    DeleteAPIAccessKeyMutation (.ok d) = .ok d.deletedKeys := by
  refine ⟨rfl, rfl, ?_, ?_, ?_⟩
  · simp [CreateAPIAccessKeysMutation, hr]
  · simp [UpdateAPIAccessKeyMutation, hu]
  · simp [DeleteAPIAccessKeyMutation, hd]

theorem keyOps_error_check_inconsistency_witness :
    GetAPIAccessKeyMutation
        (.ok ⟨⟨"id1", "k", "n", "", "USER", 9, "", "u1"⟩, some []⟩) =
      .error (.apiError (graphQLErrorString (some []))) ∧
    CreateAPIAccessKeysMutation
        (.ok ⟨[⟨"id1", "k", "n", "", "USER", 9, "", "u1"⟩], []⟩) =
      .ok [⟨"id1", "k", "n", "", "USER", 9, "", "u1"⟩] := by
  have h := keyOps_error_check_inconsistency
    ⟨"id1", "k", "n", "", "USER", 9, "", "u1"⟩ ⟨[]⟩
    ⟨[⟨"id1", "k", "n", "", "USER", 9, "", "u1"⟩], []⟩ ⟨[], []⟩ ⟨[], []⟩
    rfl rfl rfl
  exact ⟨h.1, h.2.2.1⟩

end NewRelic
